import Mathlib

/-!
# Verification of the vocabulary-enrichment pipeline

Shallow embedding of the enrichment pipeline of `my-polyglot-app`:
the definition ranker (`src/lib/definition-ranker.ts`), the fixed-window
rate limiter (`src/lib/rate-limiter.ts`), and the structuring/validation
and reconciliation logic of the single-word and batch enrichment routes
(`src/app/api/fetch-dictionary/route.ts`,
`src/app/api/fetch-dictionary-batch/route.ts`, `src/app/page.tsx`).

Strings are modelled as Lean `String` / `List Char`; JavaScript numbers as
`Int`/`Nat`; JavaScript `undefined`-able fields as `Option`, with JS
truthiness of a string-or-undefined value given by `optTruthy` (both
`undefined` and `""` are falsy).  The regular expressions used by the
ranker are embedded by a small executable matcher (`Rx`, `matchRems`)
whose patterns transcribe `FORM_CHANGE_PATTERNS` and the inline regexes
of `scoreDefinitionQuality`.
-/

namespace Polyglot

/-! ## Character classes and basic string utilities -/

/-- JS `\s` (and `String.prototype.trim`) whitespace, restricted to the
code points that occur in practice: space, tab, LF, VT, FF, CR, NBSP,
LS, PS, BOM. -/
def isWsChar (c : Char) : Bool :=
  c.toNat = 32 || c.toNat = 9 || c.toNat = 10 || c.toNat = 11 ||
  c.toNat = 12 || c.toNat = 13 || c.toNat = 160 || c.toNat = 8232 ||
  c.toNat = 8233 || c.toNat = 65279

/-- JS `\w`: `[A-Za-z0-9_]`. -/
def isWordChar (c : Char) : Bool :=
  (65 ≤ c.toNat && c.toNat ≤ 90) || (97 ≤ c.toNat && c.toNat ≤ 122) ||
  (48 ≤ c.toNat && c.toNat ≤ 57) || c.toNat = 95

/-- ASCII lower-casing, as `String.prototype.toLowerCase` acts on the
ASCII range. -/
def lowerChar (c : Char) : Char :=
  if 65 ≤ c.toNat && c.toNat ≤ 90 then Char.ofNat (c.toNat + 32) else c

/-- `String.prototype.toLowerCase`, ASCII range. -/
def lowerStr (s : String) : String := ⟨s.data.map lowerChar⟩

/-- `String.prototype.trim` on the character list. -/
def trimChars (cs : List Char) : List Char :=
  ((cs.dropWhile isWsChar).reverse.dropWhile isWsChar).reverse

/-- Number of maximal blocks of characters satisfying `p`; the boolean
argument records whether the previous character was inside a block. -/
def blocksAux (p : Char → Bool) : List Char → Bool → Nat
  | [], _ => 0
  | c :: rest, inBlock =>
    if p c then (if inBlock then 0 else 1) + blocksAux p rest true
    else blocksAux p rest false

/-- `definition.split(/\s+/).length`: one more than the number of maximal
whitespace runs (a leading or trailing run contributes an empty field). -/
def jsWordCount (s : String) : Nat := 1 + blocksAux isWsChar s.data false

/-- Number of whitespace-separated (non-empty) words of a string — the
plain-language reading of "whitespace-separated word count". -/
def tokenCount (s : String) : Nat :=
  blocksAux (fun c => !isWsChar c) s.data false

/-! ## A small executable regex matcher

First-order and structurally recursive so that concrete matches reduce
in the kernel.  `matchRems r cs` returns the list of suffixes of `cs`
remaining after some match of `r` against a prefix of `cs`; a test
anchored at the start succeeds iff that list is non-empty. -/

inductive Rx where
  | lit (s : List Char) (ci : Bool)
  | ws1
  | word1
  | cat (a b : Rx)
  | alt (a b : Rx)
  | opt (a : Rx)

/-- Strip a literal (case-insensitively when `ci`) from the front. -/
def stripLit (ci : Bool) : List Char → List Char → Option (List Char)
  | [], cs => some cs
  | _ :: _, [] => none
  | p :: ps, c :: cs =>
    if (if ci then lowerChar p = lowerChar c else p = c) then
      stripLit ci ps cs
    else none

/-- Suffixes after consuming one or more characters satisfying `p`. -/
def plusRems (p : Char → Bool) : List Char → List (List Char)
  | [] => []
  | c :: rest => if p c then rest :: plusRems p rest else []

/-- All suffixes remaining after matching `r` against a prefix. -/
def matchRems : Rx → List Char → List (List Char)
  | .lit s ci, cs =>
    match stripLit ci s cs with
    | some rest => [rest]
    | none => []
  | .ws1, cs => plusRems isWsChar cs
  | .word1, cs => plusRems isWordChar cs
  | .cat a b, cs => (matchRems a cs).flatMap (fun rest => matchRems b rest)
  | .alt a b, cs => matchRems a cs ++ matchRems b cs
  | .opt a, cs => cs :: matchRems a cs

/-- `^pattern` test: a match starting at position 0. -/
def matchesStart (r : Rx) (cs : List Char) : Bool :=
  !(matchRems r cs).isEmpty

/-- `^pattern$` test: a match covering the whole string. -/
def testFull (r : Rx) (cs : List Char) : Bool :=
  (matchRems r cs).any List.isEmpty

/-- Unanchored `RegExp.prototype.test`: a match starting anywhere. -/
def searchRx (r : Rx) : List Char → Bool
  | [] => matchesStart r []
  | c :: rest => matchesStart r (c :: rest) || searchRx r rest

/-- Case-insensitive literal (a `/.../i` fragment). -/
def li (s : String) : Rx := .lit s.data true

/-- Case-sensitive literal. -/
def ls (s : String) : Rx := .lit s.data false

/-- Sequencing of a list of fragments. -/
def seqRx (rs : List Rx) : Rx := rs.foldr .cat (.lit [] true)

/-- n-ary alternation. -/
def altRx (rs : List Rx) : Rx := rs.foldr .alt (.lit ['\x00'] true)

/-! ## The definition ranker (`src/lib/definition-ranker.ts`) -/

/-- `/^(the\s+)?(past\s+(simple|tense|participle)|present\s+participle|third\s+person|plural|comparative|superlative)\s+(of|form of)\s+/i` -/
def fcPat1 : Rx := seqRx [
  .opt (seqRx [li "the", .ws1]),
  altRx [
    seqRx [li "past", .ws1, altRx [li "simple", li "tense", li "participle"]],
    seqRx [li "present", .ws1, li "participle"],
    seqRx [li "third", .ws1, li "person"],
    li "plural", li "comparative", li "superlative"],
  .ws1, altRx [li "of", li "form of"], .ws1]

/-- `/^past\s+simple:/i` -/
def fcPat2 : Rx := seqRx [li "past", .ws1, li "simple:"]

/-- `/^past\s+participle:/i` -/
def fcPat3 : Rx := seqRx [li "past", .ws1, li "participle:"]

/-- `/^present\s+participle:/i` -/
def fcPat4 : Rx := seqRx [li "present", .ws1, li "participle:"]

/-- `/^gerund\s+of\s+/i` -/
def fcPat5 : Rx := seqRx [li "gerund", .ws1, li "of", .ws1]

/-- `/^third-person\s+singular\s+simple\s+present\s+of\s+/i` -/
def fcPat6 : Rx := seqRx [li "third-person", .ws1, li "singular", .ws1,
  li "simple", .ws1, li "present", .ws1, li "of", .ws1]

/-- `/^simple\s+past\s+(tense\s+)?(and|&)\s+past\s+participle\s+of\s+/i` -/
def fcPat7 : Rx := seqRx [li "simple", .ws1, li "past", .ws1,
  .opt (seqRx [li "tense", .ws1]), altRx [li "and", li "&"], .ws1,
  li "past", .ws1, li "participle", .ws1, li "of", .ws1]

/-- `/^plural\s+of\s+/i` -/
def fcPat8 : Rx := seqRx [li "plural", .ws1, li "of", .ws1]

/-- `/^comparative\s+form\s+of\s+/i` -/
def fcPat9 : Rx := seqRx [li "comparative", .ws1, li "form", .ws1, li "of", .ws1]

/-- `/^superlative\s+form\s+of\s+/i` -/
def fcPat10 : Rx := seqRx [li "superlative", .ws1, li "form", .ws1, li "of", .ws1]

/-- `/^\w+\s+form\s+of\s+\w+\.?$/i` -/
def fcPat11 : Rx := seqRx [.word1, .ws1, li "form", .ws1, li "of", .ws1,
  .word1, .opt (li ".")]

/-- The `FORM_CHANGE_PATTERNS.some(pattern => pattern.test(trimmedDef))`
check on the trimmed definition. -/
def formChangeTests (t : List Char) : Bool :=
  matchesStart fcPat1 t || matchesStart fcPat2 t || matchesStart fcPat3 t ||
  matchesStart fcPat4 t || matchesStart fcPat5 t || matchesStart fcPat6 t ||
  matchesStart fcPat7 t || matchesStart fcPat8 t || matchesStart fcPat9 t ||
  matchesStart fcPat10 t || testFull fcPat11 t

/-- `isFormChangeDefinition` from `definition-ranker.ts`. -/
def isFormChangeDefinition (definition : String) : Bool :=
  if definition = "" then false
  else formChangeTests (trimChars definition.data)

/-- `/to\s+\w+/` (case-sensitive). -/
def toPhraseRx : Rx := seqRx [ls "to", .ws1, .word1]

/-- `/that|which|who/` (case-sensitive). -/
def relPronounRx : Rx := altRx [ls "that", ls "which", ls "who"]

/-- `/examination|investigation|analysis|process|method|action/`. -/
def terminologyRx : Rx := altRx [ls "examination", ls "investigation",
  ls "analysis", ls "process", ls "method", ls "action"]

/-!
`scoreDefinitionQuality` mutates a single `score` variable through eight
conditional statements.  Each `scoreAfter…` definition below is the
value of `score` after the corresponding statement; the running score is
an `Int` since it can dip below zero before clamping. -/

/-- `let score = 50` then `if (isFormChangeDefinition(definition)) score -= 40`. -/
def scoreAfterFormPenalty (definition : String) : Int :=
  if isFormChangeDefinition definition then 50 - 40 else 50

/-- `if (wordCount >= 5) score += 15`. -/
def scoreAfterWc5 (definition : String) : Int :=
  if jsWordCount definition ≥ 5 then scoreAfterFormPenalty definition + 15
  else scoreAfterFormPenalty definition

/-- `if (wordCount >= 10) score += 10`. -/
def scoreAfterWc10 (definition : String) : Int :=
  if jsWordCount definition ≥ 10 then scoreAfterWc5 definition + 10
  else scoreAfterWc5 definition

/-- `if (wordCount >= 15) score += 5`. -/
def scoreAfterWc15 (definition : String) : Int :=
  if jsWordCount definition ≥ 15 then scoreAfterWc10 definition + 5
  else scoreAfterWc10 definition

/-- `if (/to\s+\w+/.test(definition)) score += 5`. -/
def scoreAfterTo (definition : String) : Int :=
  if searchRx toPhraseRx definition.data then scoreAfterWc15 definition + 5
  else scoreAfterWc15 definition

/-- `if (/that|which|who/.test(definition)) score += 5`. -/
def scoreAfterRel (definition : String) : Int :=
  if searchRx relPronounRx definition.data then scoreAfterTo definition + 5
  else scoreAfterTo definition

/-- `if (wordCount < 3) score -= 15`. -/
def scoreAfterShort (definition : String) : Int :=
  if jsWordCount definition < 3 then scoreAfterRel definition - 15
  else scoreAfterRel definition

/-- `if (/examination|investigation|analysis|process|method|action/.test(definition)) score += 10`. -/
def scoreAfterTerm (definition : String) : Int :=
  if searchRx terminologyRx definition.data then scoreAfterShort definition + 10
  else scoreAfterShort definition

/-- `scoreDefinitionQuality` from `definition-ranker.ts`. -/
def scoreDefinitionQuality (definition : String) : Int :=
  if definition = "" ∨ trimChars definition.data = [] then 0
  else max 0 (min 100 (scoreAfterTerm definition))

/-- `DefinitionSource` from `definition-ranker.ts`; optional fields are
`Option` (`none` = absent), and a present-but-empty string is `some ""`. -/
structure DefinitionSource where
  source : String
  definition : String
  partOfSpeech : Option String := none
  examples : Option (List String) := none
  cefrLevel : Option String := none
  pronunciation : Option String := none
deriving Repr, DecidableEq

/-- JS truthiness of a string-or-undefined value: `undefined` and `""`
are falsy. -/
def optTruthy (o : Option String) : Bool :=
  match o with
  | none => false
  | some s => s ≠ ""

/-- The filter `s.definition && s.definition.trim().length > 0`. -/
def validDefinition (s : DefinitionSource) : Bool :=
  !(trimChars s.definition.data).isEmpty

/-- One scored source, as built inside `selectBestDefinition`. -/
structure Scored where
  src : DefinitionSource
  score : Int
  isFormChange : Bool
deriving Repr

/-- The scored wrapper built inside `selectBestDefinition`:
`{ source, score: scoreDefinitionQuality(...), isFormChange: ... }`. -/
def toScored (source : DefinitionSource) : Scored :=
  { src := source,
    score := scoreDefinitionQuality source.definition,
    isFormChange := isFormChangeDefinition source.definition }

/-- Stable insertion step for a descending sort by score: an element is
placed before the first element whose score it reaches, hence before
later elements of equal score. -/
def insertDesc (x : Scored) : List Scored → List Scored
  | [] => [x]
  | y :: ys => if x.score ≥ y.score then x :: y :: ys else y :: insertDesc x ys

/-- Stable descending sort by score.  `Array.prototype.sort` with the
comparator `(a, b) => b.score - a.score` is stable (ES2019), and a
stable sort for a given total preorder is unique, so this insertion
sort computes the same list. -/
def sortByScoreDesc : List Scored → List Scored
  | [] => []
  | x :: xs => insertDesc x (sortByScoreDesc xs)

/-- `selectBestDefinition` from `definition-ranker.ts`. -/
def selectBestDefinition (sources : List DefinitionSource) : Option DefinitionSource :=
  let validSources := sources.filter validDefinition
  if validSources.isEmpty then none
  else
    let scoredSources := validSources.map toScored
    ((sortByScoreDesc scoredSources).head?).map (·.src)

/-- One push of the example-accumulation loop:
`if (!merged.examples.includes(example) && merged.examples.length < 3) merged.examples.push(example)`. -/
def pushStep (cur : List String) (e : String) : List String :=
  if ¬ cur.contains e = true ∧ cur.length < 3 then cur ++ [e] else cur

/-- The example-accumulation loop over one source's examples. -/
def pushExamples (acc : List String) (es : List String) : List String :=
  es.foldl pushStep acc

/-- `if (!merged.cefrLevel && source.cefrLevel) merged.cefrLevel = source.cefrLevel`. -/
def fillCefr (merged source : DefinitionSource) : DefinitionSource :=
  if !(optTruthy merged.cefrLevel) && optTruthy source.cefrLevel then
    { merged with cefrLevel := source.cefrLevel }
  else merged

/-- `if (!merged.pronunciation && source.pronunciation) merged.pronunciation = source.pronunciation`. -/
def fillPron (merged source : DefinitionSource) : DefinitionSource :=
  if !(optTruthy merged.pronunciation) && optTruthy source.pronunciation then
    { merged with pronunciation := source.pronunciation }
  else merged

/-- `if (source.examples && source.examples.length > 0) { if (!merged.examples) merged.examples = []; …push… }`. -/
def fillExamples (merged source : DefinitionSource) : DefinitionSource :=
  match source.examples with
  | none => merged
  | some es =>
    if es.isEmpty then merged
    else { merged with examples := some (pushExamples (merged.examples.getD []) es) }

/-- One iteration of the gap-filling loop of `mergeDefinitionSources`. -/
def fillFromSource (merged source : DefinitionSource) : DefinitionSource :=
  fillExamples (fillPron (fillCefr merged source) source) source

/-- `mergeDefinitionSources` from `definition-ranker.ts`.  Note that the
gap-filling loop ranges over the **original** `sources` list in input
order (including entries without a valid definition). -/
def mergeDefinitionSources (sources : List DefinitionSource) : DefinitionSource :=
  match selectBestDefinition sources with
  | none => { source := "None", definition := "" }
  | some bestDef =>
    let merged := sources.foldl fillFromSource bestDef
    let sourceNames := (sources.filter validDefinition).map (·.source)
    if sourceNames.length > 1 then
      { merged with source :=
          bestDef.source ++ " (+ " ++
          String.intercalate ", " (sourceNames.filter (· ≠ bestDef.source)) ++ ")" }
    else merged

/-! ## The fixed-window rate limiter (`src/lib/rate-limiter.ts`)

The module-level `rateLimitMap` is modelled as explicit state threaded
through `checkRateLimit`; `Date.now()` is the explicit `now` argument. -/

structure RateLimitEntry where
  count : Nat
  resetTime : Nat
deriving Repr, DecidableEq

structure RateLimitConfig where
  maxRequests : Nat
  windowMs : Nat
deriving Repr, DecidableEq

/-- The record returned by `checkRateLimit`.  `remaining` is an `Int`
because `config.maxRequests - 1` is a plain JS subtraction. -/
structure RateLimitResult where
  allowed : Bool
  limit : Nat
  remaining : Int
  resetTime : Nat
deriving Repr, DecidableEq

/-- The `rateLimitMap`, as an association list in insertion order. -/
def RLState := List (String × RateLimitEntry)

/-- `rateLimitMap.get(identifier)`. -/
def lookupRL : RLState → String → Option RateLimitEntry
  | [], _ => none
  | (k, v) :: rest, identifier =>
    if k = identifier then some v else lookupRL rest identifier

/-- `rateLimitMap.set(identifier, entry)`: replace in place, or append. -/
def setRL : RLState → String → RateLimitEntry → RLState
  | [], identifier, e => [(identifier, e)]
  | (k, v) :: rest, identifier, e =>
    if k = identifier then (identifier, e) :: rest
    else (k, v) :: setRL rest identifier e

/-- `checkRateLimit` from `rate-limiter.ts`. -/
def checkRateLimit (identifier : String) (config : RateLimitConfig)
    (now : Nat) (st : RLState) : RateLimitResult × RLState :=
  match lookupRL st identifier with
  | none =>
    let resetTime := now + config.windowMs
    ({ allowed := true, limit := config.maxRequests,
       remaining := (config.maxRequests : Int) - 1, resetTime := resetTime },
     setRL st identifier { count := 1, resetTime := resetTime })
  | some entry =>
    if now > entry.resetTime then
      let resetTime := now + config.windowMs
      ({ allowed := true, limit := config.maxRequests,
         remaining := (config.maxRequests : Int) - 1, resetTime := resetTime },
       setRL st identifier { count := 1, resetTime := resetTime })
    else if entry.count ≥ config.maxRequests then
      ({ allowed := false, limit := config.maxRequests,
         remaining := 0, resetTime := entry.resetTime }, st)
    else
      ({ allowed := true, limit := config.maxRequests,
         remaining := (config.maxRequests : Int) - (entry.count + 1),
         resetTime := entry.resetTime },
       setRL st identifier { count := entry.count + 1, resetTime := entry.resetTime })

/-- Run a sequence of `(identifier, now)` calls against a state. -/
def runRLFrom (config : RateLimitConfig) : RLState → List (String × Nat) → RLState
  | st, [] => st
  | st, (identifier, t) :: rest =>
    runRLFrom config (checkRateLimit identifier config t st).2 rest

/-- Run a sequence of calls starting from the empty map. -/
def runRL (config : RateLimitConfig) (calls : List (String × Nat)) : RLState :=
  runRLFrom config [] calls

/-! ## Single-word route: AI-output validation and the success record
(`src/app/api/fetch-dictionary/route.ts`, lines 210–250) -/

/-- The scraper result shape (`CambridgeData` / `OxfordData`) consumed
by the routes as `dictionaryData`. -/
structure EvidenceData where
  word : String
  partOfSpeech : Option String := none
  cefrLevel : Option String := none
  definition : Option String := none
  examples : Option (List String) := none
  pronunciation : Option String := none
  found : Bool := false
deriving Repr, DecidableEq

/-- The JSON-parsed AI reply (`processedData`): a field that is absent
in the JSON object is `none`. -/
structure ParsedAI where
  part_of_speech : Option String := none
  cefr_level : Option String := none
  meaning_primary : Option String := none
  usage_tips : Option String := none
deriving Repr, DecidableEq

/-- `a || fallback` on a string-or-undefined value. -/
def jsOrStr (a : Option String) (fallback : String) : String :=
  if optTruthy a then a.getD "" else fallback

/-- Lines 228–237: `if (!processedData.part_of_speech || !processedData.meaning_primary)`
replace `processedData` by the scraped-data fallback. -/
def validateProcessed (p : ParsedAI) (d : EvidenceData) : ParsedAI :=
  if ¬ optTruthy p.part_of_speech ∨ ¬ optTruthy p.meaning_primary then
    { part_of_speech := some (jsOrStr d.partOfSpeech (jsOrStr p.part_of_speech "")),
      cefr_level := some (jsOrStr d.cefrLevel (jsOrStr p.cefr_level "n.a.")),
      meaning_primary := some (jsOrStr d.definition (jsOrStr p.meaning_primary "")),
      usage_tips := some (jsOrStr ((d.examples.getD []).head?) (jsOrStr p.usage_tips "")) }
  else p

/-- The `data` object of the success response (lines 241–250): every
field is a plain string. -/
structure FinalRecord where
  part_of_speech : String
  cefr_level : String
  meaning_primary : String
  usage_tips : String
deriving Repr, DecidableEq

/-- Lines 241–250: build the success response data from `processedData`. -/
def buildResponseData (p : ParsedAI) : FinalRecord :=
  { part_of_speech := jsOrStr p.part_of_speech "",
    cefr_level := jsOrStr p.cefr_level "n.a.",
    meaning_primary := jsOrStr p.meaning_primary "",
    usage_tips := jsOrStr p.usage_tips "" }

/-- The record the single-word route returns on success, as a function
of the parsed AI reply and the scraped evidence. -/
def routeSuccessRecord (p : ParsedAI) (d : EvidenceData) : FinalRecord :=
  buildResponseData (validateProcessed p d)

/-! ## Backend configuration checks (both routes, lines 84–109) -/

/-- The configuration environment consulted by the routes. -/
structure BackendEnv where
  useHuggingFace : Bool
  useLMStudio : Bool
  huggingfaceApiKey : Option String := none
  openaiApiKey : Option String := none
deriving Repr, DecidableEq

/-- `fetch-dictionary/route.ts` lines 84–109: `some 500` when the route
returns the API-key configuration error, `none` when it proceeds. -/
def singleConfigError (e : BackendEnv) : Option Nat :=
  if e.useHuggingFace then
    if ¬ optTruthy e.huggingfaceApiKey then some 500 else none
  else if e.useLMStudio then none
  else if ¬ optTruthy e.openaiApiKey then some 500 else none

/-- `fetch-dictionary-batch/route.ts` lines 84–109: the identical
key check of the batch route. -/
def batchConfigError (e : BackendEnv) : Option Nat :=
  if e.useHuggingFace then
    if ¬ optTruthy e.huggingfaceApiKey then some 500 else none
  else if e.useLMStudio then none
  else if ¬ optTruthy e.openaiApiKey then some 500 else none

/-! ## Batch route: fallback records, failed list
(`src/app/api/fetch-dictionary-batch/route.ts`) -/

/-- One record of the batch response `data` array. -/
structure BatchRecord where
  word : String
  part_of_speech : String
  cefr_level : String
  meaning_primary : String
  usage_tips : String
deriving Repr, DecidableEq

/-- The fallback records built directly from the successful scrapes when
the AI request fails (`!response.ok`, empty content, or parse error). -/
def batchFallbackRecords (successfulScrapes : List EvidenceData) : List BatchRecord :=
  successfulScrapes.map (fun d =>
    { word := d.word,
      part_of_speech := jsOrStr d.partOfSpeech "",
      cefr_level := jsOrStr d.cefrLevel "n.a.",
      meaning_primary := jsOrStr d.definition "",
      usage_tips := jsOrStr ((d.examples.getD []).head?) "" })

/-- The batch response on an AI HTTP error: `success: true` with the
fallback records (lines around 211–228). -/
structure BatchResponse where
  success : Bool
  data : List BatchRecord
deriving Repr, DecidableEq

/-- Lines 211–228: on `!response.ok` the batch route answers success
with the evidence-derived records. -/
def batchOnAIError (successfulScrapes : List EvidenceData) : BatchResponse :=
  { success := true, data := batchFallbackRecords successfulScrapes }

/-- Line 294: `failed: scrapedResults.filter(r => !r.found).map(r => r.word)`. -/
def batchFailedList (scrapedResults : List EvidenceData) : List String :=
  (scrapedResults.filter (fun r => !r.found)).map (·.word)

/-! ## Client-side batch reconciliation (`src/app/page.tsx`, 363–407) -/

/-- A row of the persistent vocabulary store as held by the client. -/
structure VocabRow where
  id : Nat
  word : String
deriving Repr, DecidableEq

/-- Lines 365–369: the chunk entries selected for deletion — the word is
in `failed`, or no data record matches it case-insensitively. -/
def wordsToDelete (chunk : List VocabRow) (failedWords : List String)
    (data : List BatchRecord) : List VocabRow :=
  chunk.filter (fun w =>
    failedWords.contains w.word ||
    (data.find? (fun d => lowerStr d.word = lowerStr w.word)).isNone)

/-- The ids passed to the batch delete. -/
def deletesIssued (chunk : List VocabRow) (failedWords : List String)
    (data : List BatchRecord) : List Nat :=
  (wordsToDelete chunk failedWords data).map (·.id)

/-- Lines 388–404: for each data record, the update targets the first
chunk row whose word matches case-insensitively; the issued update ids. -/
def updatesIssued (chunk : List VocabRow) (data : List BatchRecord) : List Nat :=
  data.filterMap (fun wordData =>
    (chunk.find? (fun w => lowerStr w.word = lowerStr wordData.word)).map (·.id))

/-! ## Specification-side definitions

These transcribe the spec's and claims' wording, for comparison with the
code-derived definitions above. -/

/-- `Math.max(0, Math.min(100, score))`. -/
def clampScore (x : Int) : Int := max 0 (min 100 x)

/-- The claim's scoring formula, parameterised by the word count used:
clamp to [0,100] of 50, −40 on a form-change match, +15/+10/+5 at
≥5/≥10/≥15 words, −15 under 3 words, +5 for an infinitive phrase, +5 for
a relative pronoun, +10 for descriptive terminology. -/
def scoreFormulaWith (s : String) (wc : Nat) : Int :=
  clampScore (50
    - (if isFormChangeDefinition s then (40 : Int) else 0)
    + (if wc ≥ 5 then (15 : Int) else 0)
    + (if wc ≥ 10 then (10 : Int) else 0)
    + (if wc ≥ 15 then (5 : Int) else 0)
    + (if searchRx toPhraseRx s.data then (5 : Int) else 0)
    + (if searchRx relPronounRx s.data then (5 : Int) else 0)
    - (if wc < 3 then (15 : Int) else 0)
    + (if searchRx terminologyRx s.data then (10 : Int) else 0))

/-- Claim C3's formula verbatim: the word count is the number of
whitespace-separated (non-empty) words. -/
def claimedScoreSpec (s : String) : Int := scoreFormulaWith s (tokenCount s)

/-- The highest-scored element of a list, earliest element winning ties
(specification of what `scoredSources[0]` after a stable descending sort
must be). -/
def bestFirst : List Scored → Option Scored
  | [] => none
  | x :: xs =>
    match bestFirst xs with
    | none => some x
    | some y => some (if x.score ≥ y.score then x else y)

/-- The first truthy (present and non-empty) value of a list of
string-or-undefined values. -/
def firstTruthy : List (Option String) → Option String
  | [] => none
  | o :: rest => if optTruthy o then o else firstTruthy rest

/-- The definition string of C2's counterexample: a form-change
definition that is long and richly phrased. -/
def longFormChangeExample : String :=
  "past simple of vet which is to examine the process of analysis among many other words here"

/-- A source discarded by `selectBestDefinition` (empty definition) but
carrying a CEFR level. -/
def srcEmptyWithCefr : DefinitionSource :=
  ⟨"X", "", none, none, some "C1", none⟩

/-- A source with a valid definition and no CEFR level. -/
def srcValidNoCefr : DefinitionSource :=
  ⟨"Y", "a careful and critical examination of something", none, none, none, none⟩

/-- Scraped evidence that was found with a definition but no part of
speech (the Cambridge scraper sets `partOfSpeech` only when a `.pos`
element is present, independently of `found`). -/
def evNoPos : EvidenceData :=
  ⟨"run", none, none, some "to move fast on foot", none, none, true⟩

/-- Batch example: two store rows, the first colliding case-insensitively
with the second. -/
def c9Chunk : List VocabRow := [⟨1, "Vet"⟩, ⟨2, "vet"⟩]

/-- Scrape outcomes for `c9Chunk`: "Vet" failed (e.g. a transport error),
"vet" found. -/
def c9Scraped : List EvidenceData :=
  [⟨"Vet", none, none, none, none, none, false⟩,
   ⟨"vet", some "verb", none, some "to examine something carefully", none, none, true⟩]

/-- The batch data for `c9Scraped`'s successful scrape (fallback path). -/
def c9Data : List BatchRecord :=
  batchFallbackRecords
    [⟨"vet", some "verb", none, some "to examine something carefully", none, none, true⟩]

/-- A collision-free batch example. -/
def c9ChunkOk : List VocabRow := [⟨1, "alpha"⟩, ⟨2, "beta"⟩]

/-- Scrape outcomes for `c9ChunkOk`: "alpha" not found, "beta" found. -/
def c9ScrapedOk : List EvidenceData :=
  [⟨"alpha", none, none, none, none, none, false⟩,
   ⟨"beta", some "noun", none, some "a letter of the greek alphabet", none, none, true⟩]

/-- The batch data for `c9ScrapedOk`'s successful scrape. -/
def c9DataOk : List BatchRecord :=
  batchFallbackRecords
    [⟨"beta", some "noun", none, some "a letter of the greek alphabet", none, none, true⟩]

/-! ## Helper lemmas: block counts, trimming, and the score's closed form -/

theorem blocksAux_true_le_false (p : Char → Bool) :
    ∀ cs : List Char, blocksAux p cs true ≤ blocksAux p cs false := by
  intro cs
  induction cs with
  | nil => exact Nat.le_refl 0
  | cons c r ih =>
    by_cases h : p c
    · simp only [blocksAux, h, if_true, if_false]
      omega
    · simp [blocksAux, h]

theorem blocksAux_compl (p : Char → Bool) :
    ∀ cs : List Char,
      blocksAux (fun c => !p c) cs true ≤ blocksAux p cs false ∧
      blocksAux (fun c => !p c) cs false ≤ 1 + blocksAux p cs true := by
  intro cs
  induction cs with
  | nil => exact ⟨Nat.le_refl 0, Nat.le_succ 0⟩
  | cons c r ih => by_cases h : p c <;> simp [blocksAux, h] <;> omega

/-- The code's `split(/\s+/).length` word count dominates the number of
whitespace-separated words. -/
theorem tokenCount_le_jsWordCount (s : String) : tokenCount s ≤ jsWordCount s := by
  have h := blocksAux_compl isWsChar s.data
  have h2 := blocksAux_true_le_false isWsChar s.data
  unfold tokenCount jsWordCount
  omega

theorem blocksAux_eq_zero {p : Char → Bool} :
    ∀ {cs : List Char} {b : Bool}, (∀ c ∈ cs, p c = false) → blocksAux p cs b = 0 := by
  intro cs
  induction cs with
  | nil => intro b _; rfl
  | cons c r ih =>
    intro b h
    have hc : p c = false := h c (List.mem_cons_self c r)
    simp [blocksAux, hc]
    exact ih fun x hx => h x (List.mem_cons_of_mem c hx)

theorem all_ws_of_trimChars_eq_nil {cs : List Char} (h : trimChars cs = []) :
    ∀ c ∈ cs, isWsChar c = true := by
  unfold trimChars at h
  rw [List.reverse_eq_nil_iff] at h
  have hdrop : ∀ c ∈ (cs.dropWhile isWsChar).reverse, isWsChar c = true := by
    intro c hc
    exact List.dropWhile_eq_nil_iff.mp h c hc
  have hdrop' : ∀ c ∈ cs.dropWhile isWsChar, isWsChar c = true := by
    intro c hc
    exact hdrop c (List.mem_reverse.mpr hc)
  intro c hc
  rw [← List.takeWhile_append_dropWhile (p := isWsChar) (l := cs)] at hc
  rcases List.mem_append.mp hc with h1 | h2
  · exact List.mem_takeWhile_imp h1
  · exact hdrop' c h2

theorem trimChars_ne_nil_of_token {s : String} (h : 1 ≤ tokenCount s) :
    trimChars s.data ≠ [] := by
  intro hnil
  have hall := all_ws_of_trimChars_eq_nil hnil
  have : tokenCount s = 0 := by
    unfold tokenCount
    exact blocksAux_eq_zero fun c hc => by simp [hall c hc]
  omega

theorem clampScore_le {x c : Int} (h : x ≤ c) (h0 : 0 ≤ c) : clampScore x ≤ c :=
  max_le h0 (min_le_of_right_le h)

theorem le_clampScore {x c : Int} (h : c ≤ x) (h1 : c ≤ 100) : c ≤ clampScore x :=
  le_max_of_le_right (le_min h1 h)

/-- The sequential score computation equals the clamp-of-sum formula
with the code's `split(/\s+/)` word count. -/
theorem scoreQuality_closed (s : String) (h : trimChars s.data ≠ []) :
    scoreDefinitionQuality s = scoreFormulaWith s (jsWordCount s) := by
  have hs : ¬ (s = "" ∨ trimChars s.data = []) := by
    rintro (hse | htr)
    · exact h (by rw [hse]; rfl)
    · exact h htr
  have e1 : scoreAfterFormPenalty s =
      50 - (if isFormChangeDefinition s = true then (40 : Int) else 0) := by
    by_cases hc : isFormChangeDefinition s = true <;>
      simp [scoreAfterFormPenalty, hc]
  have e2 : scoreAfterWc5 s =
      scoreAfterFormPenalty s + (if jsWordCount s ≥ 5 then (15 : Int) else 0) := by
    by_cases hc : jsWordCount s ≥ 5 <;> simp [scoreAfterWc5, hc]
  have e3 : scoreAfterWc10 s =
      scoreAfterWc5 s + (if jsWordCount s ≥ 10 then (10 : Int) else 0) := by
    by_cases hc : jsWordCount s ≥ 10 <;> simp [scoreAfterWc10, hc]
  have e4 : scoreAfterWc15 s =
      scoreAfterWc10 s + (if jsWordCount s ≥ 15 then (5 : Int) else 0) := by
    by_cases hc : jsWordCount s ≥ 15 <;> simp [scoreAfterWc15, hc]
  have e5 : scoreAfterTo s =
      scoreAfterWc15 s + (if searchRx toPhraseRx s.data = true then (5 : Int) else 0) := by
    by_cases hc : searchRx toPhraseRx s.data = true <;> simp [scoreAfterTo, hc]
  have e6 : scoreAfterRel s =
      scoreAfterTo s + (if searchRx relPronounRx s.data = true then (5 : Int) else 0) := by
    by_cases hc : searchRx relPronounRx s.data = true <;> simp [scoreAfterRel, hc]
  have e7 : scoreAfterShort s =
      scoreAfterRel s - (if jsWordCount s < 3 then (15 : Int) else 0) := by
    by_cases hc : jsWordCount s < 3 <;> simp [scoreAfterShort, hc]
  have e8 : scoreAfterTerm s =
      scoreAfterShort s + (if searchRx terminologyRx s.data = true then (10 : Int) else 0) := by
    by_cases hc : searchRx terminologyRx s.data = true <;> simp [scoreAfterTerm, hc]
  unfold scoreDefinitionQuality scoreFormulaWith clampScore
  rw [if_neg hs]
  rw [e8, e7, e6, e5, e4, e3, e2, e1]

/-! ## C2 and C3 -/

/-- C2: counterexample.  A form-change definition that is long and
phrase-rich scores 60, not ≤ 35: `scoreDefinitionQuality` does not stay
below 35 on every form-change definition. -/
theorem formChange_score_counterexample :
    isFormChangeDefinition longFormChangeExample = true ∧
    scoreDefinitionQuality longFormChangeExample = 60 ∧
    ¬ scoreDefinitionQuality longFormChangeExample ≤ 35 := by
  refine ⟨by decide, by decide, by decide⟩

/-- C2 (amended): every form-change definition scores at most 60, every
definition of at least 10 whitespace-separated words matching no
form-change pattern scores at least 75, and hence every form-change
definition scores strictly below every such descriptive definition. -/
theorem formChange_score_lt_descriptive (s t : String)
    (hs : isFormChangeDefinition s = true)
    (ht : isFormChangeDefinition t = false)
    (hwc : 10 ≤ tokenCount t) :
    scoreDefinitionQuality s ≤ 60 ∧ 75 ≤ scoreDefinitionQuality t ∧
    scoreDefinitionQuality s < scoreDefinitionQuality t := by
  have hbs : scoreDefinitionQuality s ≤ 60 := by
    by_cases htr : trimChars s.data = []
    · exfalso
      by_cases hse : s = ""
      · rw [isFormChangeDefinition, if_pos hse] at hs
        exact Bool.false_ne_true hs
      · rw [isFormChangeDefinition, if_neg hse, htr] at hs
        have hempty : formChangeTests [] = false := by decide
        rw [hempty] at hs
        exact Bool.false_ne_true hs
    · rw [scoreQuality_closed s htr]
      unfold scoreFormulaWith
      apply clampScore_le _ (by norm_num)
      rw [if_pos hs]
      split_ifs <;> omega
  have hbt : 75 ≤ scoreDefinitionQuality t := by
    have htr : trimChars t.data ≠ [] := trimChars_ne_nil_of_token (by omega)
    have hwc' : 10 ≤ jsWordCount t := le_trans hwc (tokenCount_le_jsWordCount t)
    rw [scoreQuality_closed t htr]
    unfold scoreFormulaWith
    apply le_clampScore _ (by norm_num)
    rw [if_neg (by simp [ht])]
    split_ifs <;> omega
  exact ⟨hbs, hbt, lt_of_le_of_lt hbs (lt_of_lt_of_le (by norm_num) hbt)⟩

/-- Witness for `formChange_score_lt_descriptive` at concrete strings. -/
theorem formChange_score_lt_descriptive_witness :
    isFormChangeDefinition "past simple of vet" = true ∧
    isFormChangeDefinition "to make a careful and critical examination of something here" = false ∧
    10 ≤ tokenCount "to make a careful and critical examination of something here" ∧
    (scoreDefinitionQuality "past simple of vet" ≤ 60 ∧
     75 ≤ scoreDefinitionQuality "to make a careful and critical examination of something here" ∧
     scoreDefinitionQuality "past simple of vet" <
       scoreDefinitionQuality "to make a careful and critical examination of something here") :=
  ⟨by decide, by decide, by decide,
   formChange_score_lt_descriptive _ _ (by decide) (by decide) (by decide)⟩

/-- C3: counterexample.  The string `" a b"` has two whitespace-separated
words, so the claim's formula yields 35 (50 − 15 short-definition
penalty); the code's `split(/\s+/)` counts a leading empty field, sees 3
words, and returns 50. -/
theorem scoreQuality_formula_counterexample :
    scoreDefinitionQuality " a b" = 50 ∧ claimedScoreSpec " a b" = 35 ∧
    ¬ scoreDefinitionQuality " a b" = claimedScoreSpec " a b" := by
  refine ⟨by decide, by decide, by decide⟩

/-- C3 (amended): for every definition with non-whitespace content, the
score equals the claim's clamp-of-sum formula, with the word count taken
as `split(/\s+/).length`, which adds one empty field for a leading and a
trailing whitespace run. -/
theorem scoreQuality_eq_formula (s : String) (h : trimChars s.data ≠ []) :
    scoreDefinitionQuality s = scoreFormulaWith s (jsWordCount s) :=
  scoreQuality_closed s h

/-- Witness for `scoreQuality_eq_formula` at a concrete string. -/
theorem scoreQuality_eq_formula_witness :
    trimChars "to examine".data ≠ [] ∧
    scoreDefinitionQuality "to examine" = scoreFormulaWith "to examine" (jsWordCount "to examine") :=
  ⟨by decide, scoreQuality_eq_formula "to examine" (by decide)⟩

/-! ## C1: the merge takes the best-scored definition, first wins ties -/

theorem fillCefr_definition (m s : DefinitionSource) :
    (fillCefr m s).definition = m.definition := by
  unfold fillCefr
  split_ifs <;> rfl

theorem fillPron_definition (m s : DefinitionSource) :
    (fillPron m s).definition = m.definition := by
  unfold fillPron
  split_ifs <;> rfl

theorem fillExamples_definition (m s : DefinitionSource) :
    (fillExamples m s).definition = m.definition := by
  unfold fillExamples
  cases hse : s.examples
  · rfl
  · dsimp only
    split_ifs <;> rfl

theorem fillFromSource_definition (m s : DefinitionSource) :
    (fillFromSource m s).definition = m.definition := by
  unfold fillFromSource
  rw [fillExamples_definition, fillPron_definition, fillCefr_definition]

theorem foldl_fill_definition (l : List DefinitionSource) :
    ∀ m : DefinitionSource, (l.foldl fillFromSource m).definition = m.definition := by
  induction l with
  | nil => intro m; rfl
  | cons s rest ih =>
    intro m
    show (rest.foldl fillFromSource (fillFromSource m s)).definition = _
    rw [ih, fillFromSource_definition]

theorem insertDesc_head (x : Scored) (l : List Scored) :
    (insertDesc x l).head? = some (match l.head? with
      | none => x
      | some y => if x.score ≥ y.score then x else y) := by
  cases l with
  | nil => rfl
  | cons y ys =>
    unfold insertDesc
    split_ifs with hc <;> simp [hc]

theorem sortByScoreDesc_head (l : List Scored) :
    (sortByScoreDesc l).head? = bestFirst l := by
  induction l with
  | nil => rfl
  | cons x xs ih =>
    show (insertDesc x (sortByScoreDesc xs)).head? = _
    rw [insertDesc_head, ih]
    cases hb : bestFirst xs <;> simp [bestFirst, hb]

theorem bestFirst_spec :
    ∀ (l : List Scored), l ≠ [] →
      ∃ (i : Nat) (hi : i < l.length),
        bestFirst l = some (l.get ⟨i, hi⟩) ∧
        (∀ (j : Nat) (hj : j < l.length),
          (l.get ⟨j, hj⟩).score ≤ (l.get ⟨i, hi⟩).score) ∧
        (∀ (j : Nat) (hj : j < l.length), j < i →
          (l.get ⟨j, hj⟩).score < (l.get ⟨i, hi⟩).score) := by
  intro l
  induction l with
  | nil => intro hne; exact absurd rfl hne
  | cons x xs ih =>
    intro _
    by_cases hx : xs = []
    · subst hx
      refine ⟨0, by simp, rfl, ?_, ?_⟩
      · intro j hj
        have hj1 : j < 1 := by simpa using hj
        have hj0 : j = 0 := by omega
        subst hj0
        exact le_refl _
      · intro j hj hj0
        omega
    · obtain ⟨i, hi, hbf, hmax, hstrict⟩ := ih hx
      by_cases hxy : x.score ≥ (xs.get ⟨i, hi⟩).score
      · refine ⟨0, by simp, ?_, ?_, ?_⟩
        · show bestFirst (x :: xs) = some x
          unfold bestFirst
          rw [hbf]
          dsimp only
          rw [if_pos hxy]
        · intro j hj
          match j with
          | 0 => exact le_refl _
          | k + 1 =>
            have hk : k < xs.length := by simpa using hj
            exact le_trans (hmax k hk) hxy
        · intro j hj hj0
          omega
      · refine ⟨i + 1, by simpa using Nat.succ_lt_succ hi, ?_, ?_, ?_⟩
        · show bestFirst (x :: xs) = some (xs.get ⟨i, hi⟩)
          unfold bestFirst
          rw [hbf]
          dsimp only
          rw [if_neg hxy]
        · intro j hj
          match j with
          | 0 => exact le_of_lt (lt_of_not_ge hxy)
          | k + 1 =>
            have hk : k < xs.length := by simpa using hj
            exact hmax k hk
        · intro j hj hjlt
          match j with
          | 0 => exact lt_of_not_ge hxy
          | k + 1 =>
            have hk : k < xs.length := by simpa using hj
            exact hstrict k hk (by omega)

/-- C1 (confirmed): when at least one source has a non-whitespace
definition, the merged result's definition is that of the entry whose
`scoreDefinitionQuality` is maximal among the valid entries, the
earliest such entry winning ties (indices are into the
registration-ordered list of valid entries, which preserves the input
order). -/
theorem mergeDefinitionSources_picks_best (sources : List DefinitionSource)
    (h : sources.filter validDefinition ≠ []) :
    ∃ (i : Nat) (hi : i < (sources.filter validDefinition).length),
      (mergeDefinitionSources sources).definition =
        ((sources.filter validDefinition).get ⟨i, hi⟩).definition ∧
      (∀ (j : Nat) (hj : j < (sources.filter validDefinition).length),
        scoreDefinitionQuality (((sources.filter validDefinition).get ⟨j, hj⟩).definition) ≤
          scoreDefinitionQuality (((sources.filter validDefinition).get ⟨i, hi⟩).definition)) ∧
      (∀ (j : Nat) (hj : j < (sources.filter validDefinition).length), j < i →
        scoreDefinitionQuality (((sources.filter validDefinition).get ⟨j, hj⟩).definition) <
          scoreDefinitionQuality (((sources.filter validDefinition).get ⟨i, hi⟩).definition)) := by
  have hl : (sources.filter validDefinition).map toScored ≠ [] := by
    simpa using h
  obtain ⟨i, hi, hbf, hmax, hstrict⟩ :=
    bestFirst_spec ((sources.filter validDefinition).map toScored) hl
  have hi' : i < (sources.filter validDefinition).length := by
    simpa using hi
  have hget : ∀ (j : Nat) (hj : j < ((sources.filter validDefinition).map toScored).length),
      ((sources.filter validDefinition).map toScored).get ⟨j, hj⟩ =
        toScored ((sources.filter validDefinition).get ⟨j, by simpa using hj⟩) := by
    intro j hj
    simp [List.get_eq_getElem]
  have hsel : selectBestDefinition sources =
      some ((sources.filter validDefinition).get ⟨i, hi'⟩) := by
    unfold selectBestDefinition
    dsimp only
    rw [if_neg (by simpa [List.isEmpty_iff] using h)]
    rw [sortByScoreDesc_head, hbf, hget i hi]
    rfl
  have hdef : (mergeDefinitionSources sources).definition =
      ((sources.filter validDefinition).get ⟨i, hi'⟩).definition := by
    unfold mergeDefinitionSources
    rw [hsel]
    dsimp only
    split_ifs <;> exact foldl_fill_definition _ _
  refine ⟨i, hi', hdef, ?_, ?_⟩
  · intro j hj
    have := hmax j (by simpa using hj)
    rw [hget j (by simpa using hj), hget i hi] at this
    exact this
  · intro j hj hlt
    have := hstrict j (by simpa using hj) hlt
    rw [hget j (by simpa using hj), hget i hi] at this
    exact this

/-- Witness for `mergeDefinitionSources_picks_best` at a two-source list. -/
theorem mergeDefinitionSources_picks_best_witness :
    [⟨"Cambridge", "past simple of vet", none, none, none, none⟩,
     ⟨"Google", "make a careful and critical examination of (something)",
       none, none, none, none⟩].filter validDefinition ≠ ([] : List DefinitionSource) ∧
    (∃ (i : Nat)
       (hi : i < ([⟨"Cambridge", "past simple of vet", none, none, none, none⟩,
         ⟨"Google", "make a careful and critical examination of (something)",
           none, none, none, none⟩].filter validDefinition).length),
      (mergeDefinitionSources
        [⟨"Cambridge", "past simple of vet", none, none, none, none⟩,
         ⟨"Google", "make a careful and critical examination of (something)",
           none, none, none, none⟩]).definition =
        (([⟨"Cambridge", "past simple of vet", none, none, none, none⟩,
          ⟨"Google", "make a careful and critical examination of (something)",
            none, none, none, none⟩].filter validDefinition).get ⟨i, hi⟩).definition ∧
      (∀ (j : Nat)
         (hj : j < ([⟨"Cambridge", "past simple of vet", none, none, none, none⟩,
           ⟨"Google", "make a careful and critical examination of (something)",
             none, none, none, none⟩].filter validDefinition).length),
        scoreDefinitionQuality
          ((([⟨"Cambridge", "past simple of vet", none, none, none, none⟩,
            ⟨"Google", "make a careful and critical examination of (something)",
              none, none, none, none⟩].filter validDefinition).get ⟨j, hj⟩).definition) ≤
          scoreDefinitionQuality
            ((([⟨"Cambridge", "past simple of vet", none, none, none, none⟩,
              ⟨"Google", "make a careful and critical examination of (something)",
                none, none, none, none⟩].filter validDefinition).get ⟨i, hi⟩).definition)) ∧
      (∀ (j : Nat)
         (hj : j < ([⟨"Cambridge", "past simple of vet", none, none, none, none⟩,
           ⟨"Google", "make a careful and critical examination of (something)",
             none, none, none, none⟩].filter validDefinition).length), j < i →
        scoreDefinitionQuality
          ((([⟨"Cambridge", "past simple of vet", none, none, none, none⟩,
            ⟨"Google", "make a careful and critical examination of (something)",
              none, none, none, none⟩].filter validDefinition).get ⟨j, hj⟩).definition) <
          scoreDefinitionQuality
            ((([⟨"Cambridge", "past simple of vet", none, none, none, none⟩,
              ⟨"Google", "make a careful and critical examination of (something)",
                none, none, none, none⟩].filter validDefinition).get ⟨i, hi⟩).definition))) :=
  ⟨by decide, mergeDefinitionSources_picks_best _ (by decide)⟩

/-! ## C4: what the gap-filling loop actually does -/

theorem fillCefr_cefrLevel (m s : DefinitionSource) :
    (fillCefr m s).cefrLevel =
      if !(optTruthy m.cefrLevel) && optTruthy s.cefrLevel then s.cefrLevel
      else m.cefrLevel := by
  unfold fillCefr
  split_ifs <;> rfl

theorem fillPron_cefrLevel (m s : DefinitionSource) :
    (fillPron m s).cefrLevel = m.cefrLevel := by
  unfold fillPron
  split_ifs <;> rfl

theorem fillExamples_cefrLevel (m s : DefinitionSource) :
    (fillExamples m s).cefrLevel = m.cefrLevel := by
  unfold fillExamples
  cases hse : s.examples
  · rfl
  · dsimp only
    split_ifs <;> rfl

theorem fillCefr_pronunciation (m s : DefinitionSource) :
    (fillCefr m s).pronunciation = m.pronunciation := by
  unfold fillCefr
  split_ifs <;> rfl

theorem fillPron_pronunciation (m s : DefinitionSource) :
    (fillPron m s).pronunciation =
      if !(optTruthy m.pronunciation) && optTruthy s.pronunciation then s.pronunciation
      else m.pronunciation := by
  unfold fillPron
  split_ifs <;> rfl

theorem fillExamples_pronunciation (m s : DefinitionSource) :
    (fillExamples m s).pronunciation = m.pronunciation := by
  unfold fillExamples
  cases hse : s.examples
  · rfl
  · dsimp only
    split_ifs <;> rfl

theorem fillCefr_examples (m s : DefinitionSource) :
    (fillCefr m s).examples = m.examples := by
  unfold fillCefr
  split_ifs <;> rfl

theorem fillPron_examples (m s : DefinitionSource) :
    (fillPron m s).examples = m.examples := by
  unfold fillPron
  split_ifs <;> rfl

theorem fillFromSource_cefrLevel (m s : DefinitionSource) :
    (fillFromSource m s).cefrLevel =
      if !(optTruthy m.cefrLevel) && optTruthy s.cefrLevel then s.cefrLevel
      else m.cefrLevel := by
  unfold fillFromSource
  rw [fillExamples_cefrLevel, fillPron_cefrLevel, fillCefr_cefrLevel]

theorem fillFromSource_pronunciation (m s : DefinitionSource) :
    (fillFromSource m s).pronunciation =
      if !(optTruthy m.pronunciation) && optTruthy s.pronunciation then s.pronunciation
      else m.pronunciation := by
  unfold fillFromSource
  rw [fillExamples_pronunciation, fillPron_pronunciation, fillCefr_pronunciation]

theorem fillFromSource_examples (m s : DefinitionSource) :
    (fillFromSource m s).examples =
      match s.examples with
      | none => m.examples
      | some es =>
        if es.isEmpty then m.examples
        else some (pushExamples (m.examples.getD []) es) := by
  unfold fillFromSource fillExamples
  cases hse : s.examples
  · dsimp only
    rw [fillPron_examples, fillCefr_examples]
  · dsimp only
    rw [fillPron_examples, fillCefr_examples]
    split_ifs
    · rw [fillPron_examples, fillCefr_examples]
    · rfl

theorem foldl_fill_cefr_truthy :
    ∀ (l : List DefinitionSource) (m : DefinitionSource),
      optTruthy m.cefrLevel = true →
      (l.foldl fillFromSource m).cefrLevel = m.cefrLevel := by
  intro l
  induction l with
  | nil => intro m _; rfl
  | cons s rest ih =>
    intro m h
    have hc : (fillFromSource m s).cefrLevel = m.cefrLevel := by
      rw [fillFromSource_cefrLevel]
      simp [h]
    show (rest.foldl fillFromSource (fillFromSource m s)).cefrLevel = _
    rw [ih _ (by rw [hc]; exact h), hc]

theorem foldl_fill_cefr_falsy :
    ∀ (l : List DefinitionSource) (m : DefinitionSource),
      optTruthy m.cefrLevel = false →
      (l.foldl fillFromSource m).cefrLevel =
        (match firstTruthy (l.map (·.cefrLevel)) with
         | none => m.cefrLevel
         | some v => some v) := by
  intro l
  induction l with
  | nil => intro m _; rfl
  | cons s rest ih =>
    intro m h
    show (rest.foldl fillFromSource (fillFromSource m s)).cefrLevel = _
    by_cases hs : optTruthy s.cefrLevel = true
    · have hc : (fillFromSource m s).cefrLevel = s.cefrLevel := by
        rw [fillFromSource_cefrLevel]
        simp [h, hs]
      rw [foldl_fill_cefr_truthy rest _ (by rw [hc]; exact hs), hc]
      cases hsc : s.cefrLevel with
      | none => rw [hsc] at hs; exact absurd hs (by simp [optTruthy])
      | some v =>
        rw [hsc] at hs
        simp [firstTruthy, hsc, hs]
    · have hc : (fillFromSource m s).cefrLevel = m.cefrLevel := by
        rw [fillFromSource_cefrLevel]
        simp [Bool.eq_false_iff.mp (by simpa using hs)]
      rw [ih _ (by rw [hc]; exact h), hc]
      have hskip : firstTruthy ((s :: rest).map (·.cefrLevel)) =
          firstTruthy (rest.map (·.cefrLevel)) := by
        simp [firstTruthy, hs]
      rw [hskip]

theorem foldl_fill_pron_truthy :
    ∀ (l : List DefinitionSource) (m : DefinitionSource),
      optTruthy m.pronunciation = true →
      (l.foldl fillFromSource m).pronunciation = m.pronunciation := by
  intro l
  induction l with
  | nil => intro m _; rfl
  | cons s rest ih =>
    intro m h
    have hc : (fillFromSource m s).pronunciation = m.pronunciation := by
      rw [fillFromSource_pronunciation]
      simp [h]
    show (rest.foldl fillFromSource (fillFromSource m s)).pronunciation = _
    rw [ih _ (by rw [hc]; exact h), hc]

theorem foldl_fill_pron_falsy :
    ∀ (l : List DefinitionSource) (m : DefinitionSource),
      optTruthy m.pronunciation = false →
      (l.foldl fillFromSource m).pronunciation =
        (match firstTruthy (l.map (·.pronunciation)) with
         | none => m.pronunciation
         | some v => some v) := by
  intro l
  induction l with
  | nil => intro m _; rfl
  | cons s rest ih =>
    intro m h
    show (rest.foldl fillFromSource (fillFromSource m s)).pronunciation = _
    by_cases hs : optTruthy s.pronunciation = true
    · have hc : (fillFromSource m s).pronunciation = s.pronunciation := by
        rw [fillFromSource_pronunciation]
        simp [h, hs]
      rw [foldl_fill_pron_truthy rest _ (by rw [hc]; exact hs), hc]
      cases hsc : s.pronunciation with
      | none => rw [hsc] at hs; exact absurd hs (by simp [optTruthy])
      | some v =>
        rw [hsc] at hs
        simp [firstTruthy, hsc, hs]
    · have hc : (fillFromSource m s).pronunciation = m.pronunciation := by
        rw [fillFromSource_pronunciation]
        simp [Bool.eq_false_iff.mp (by simpa using hs)]
      rw [ih _ (by rw [hc]; exact h), hc]
      have hskip : firstTruthy ((s :: rest).map (·.pronunciation)) =
          firstTruthy (rest.map (·.pronunciation)) := by
        simp [firstTruthy, hs]
      rw [hskip]

theorem pushStep_extends (acc : List String) (e : String) :
    ∃ t, pushStep acc e = acc ++ t := by
  unfold pushStep
  split_ifs
  · exact ⟨[e], rfl⟩
  · exact ⟨[], (List.append_nil acc).symm⟩

theorem pushExamples_extends :
    ∀ (es acc : List String), ∃ new, pushExamples acc es = acc ++ new := by
  intro es
  induction es with
  | nil => intro acc; exact ⟨[], (List.append_nil acc).symm⟩
  | cons e es ih =>
    intro acc
    obtain ⟨t, ht⟩ := pushStep_extends acc e
    obtain ⟨new, hnew⟩ := ih (pushStep acc e)
    refine ⟨t ++ new, ?_⟩
    rw [pushExamples, List.foldl_cons]
    show pushExamples (pushStep acc e) es = _
    rw [hnew, ht, List.append_assoc]

theorem pushStep_length (acc : List String) (e : String) :
    (pushStep acc e).length ≤ max acc.length 3 := by
  unfold pushStep
  split_ifs with hg
  · have := hg.2
    simp only [List.length_append, List.length_singleton]
    omega
  · exact le_max_left _ _

theorem pushExamples_length :
    ∀ (es acc : List String), (pushExamples acc es).length ≤ max acc.length 3 := by
  intro es
  induction es with
  | nil => intro acc; exact le_max_left _ _
  | cons e es ih =>
    intro acc
    rw [pushExamples, List.foldl_cons]
    have h1 : (pushExamples (pushStep acc e) es).length ≤ max (pushStep acc e).length 3 :=
      ih (pushStep acc e)
    have h2 := pushStep_length acc e
    show (pushExamples (pushStep acc e) es).length ≤ _
    omega

theorem fillFromSource_examples_extends (m s : DefinitionSource) :
    ∃ t, ((fillFromSource m s).examples.getD []) = (m.examples.getD []) ++ t := by
  rw [fillFromSource_examples]
  cases hse : s.examples
  · exact ⟨[], (List.append_nil _).symm⟩
  · dsimp only
    split_ifs
    · exact ⟨[], (List.append_nil _).symm⟩
    · simpa using pushExamples_extends _ (m.examples.getD [])

theorem fillFromSource_examples_length (m s : DefinitionSource) :
    ((fillFromSource m s).examples.getD []).length ≤ max (m.examples.getD []).length 3 := by
  rw [fillFromSource_examples]
  cases hse : s.examples
  · exact le_max_left _ _
  · dsimp only
    split_ifs
    · exact le_max_left _ _
    · simpa using pushExamples_length _ (m.examples.getD [])

theorem foldl_fill_examples_extends :
    ∀ (l : List DefinitionSource) (m : DefinitionSource),
      ∃ new, ((l.foldl fillFromSource m).examples.getD []) = (m.examples.getD []) ++ new := by
  intro l
  induction l with
  | nil => intro m; exact ⟨[], (List.append_nil _).symm⟩
  | cons s rest ih =>
    intro m
    obtain ⟨t, ht⟩ := fillFromSource_examples_extends m s
    obtain ⟨new, hnew⟩ := ih (fillFromSource m s)
    refine ⟨t ++ new, ?_⟩
    show ((rest.foldl fillFromSource (fillFromSource m s)).examples.getD []) = _
    rw [hnew, ht, List.append_assoc]

theorem foldl_fill_examples_length :
    ∀ (l : List DefinitionSource) (m : DefinitionSource),
      ((l.foldl fillFromSource m).examples.getD []).length ≤
        max (m.examples.getD []).length 3 := by
  intro l
  induction l with
  | nil => intro m; exact le_max_left _ _
  | cons s rest ih =>
    intro m
    have h1 := ih (fillFromSource m s)
    have h2 := fillFromSource_examples_length m s
    show ((rest.foldl fillFromSource (fillFromSource m s)).examples.getD []).length ≤ _
    omega

/-- C4: counterexample.  The gap-filling loop of `mergeDefinitionSources`
ranges over the **original** input list: a source with an empty
definition (discarded from base selection) still donates its CEFR level,
so attributes are not filled "by scanning the remaining non-discarded
entries". -/
theorem mergeFill_counterexample :
    validDefinition srcEmptyWithCefr = false ∧
    selectBestDefinition [srcEmptyWithCefr, srcValidNoCefr] = some srcValidNoCefr ∧
    srcValidNoCefr.cefrLevel = none ∧
    (mergeDefinitionSources [srcEmptyWithCefr, srcValidNoCefr]).cefrLevel = some "C1" := by
  refine ⟨by decide, by decide, rfl, by decide⟩

/-- C4 (amended): entries without a valid (non-whitespace) definition
are excluded only from base selection.  The gap-filling loop scans ALL
input entries in input (registration) order — including discarded ones —
copying the first present (truthy) cefrLevel and pronunciation the base
lacks; examples are only ever appended to the base's list, and the list
never grows beyond max(|base examples|, 3). -/
theorem mergeDefinitionSources_fill (sources : List DefinitionSource)
    (b : DefinitionSource) (hsel : selectBestDefinition sources = some b) :
    (optTruthy b.cefrLevel = true →
      (mergeDefinitionSources sources).cefrLevel = b.cefrLevel) ∧
    (optTruthy b.cefrLevel = false →
      (mergeDefinitionSources sources).cefrLevel =
        (match firstTruthy (sources.map (·.cefrLevel)) with
         | none => b.cefrLevel
         | some v => some v)) ∧
    (optTruthy b.pronunciation = true →
      (mergeDefinitionSources sources).pronunciation = b.pronunciation) ∧
    (optTruthy b.pronunciation = false →
      (mergeDefinitionSources sources).pronunciation =
        (match firstTruthy (sources.map (·.pronunciation)) with
         | none => b.pronunciation
         | some v => some v)) ∧
    (∃ new, ((mergeDefinitionSources sources).examples.getD []) =
      (b.examples.getD []) ++ new) ∧
    ((mergeDefinitionSources sources).examples.getD []).length ≤
      max (b.examples.getD []).length 3 := by
  have hred : (mergeDefinitionSources sources).cefrLevel =
        (sources.foldl fillFromSource b).cefrLevel ∧
      (mergeDefinitionSources sources).pronunciation =
        (sources.foldl fillFromSource b).pronunciation ∧
      (mergeDefinitionSources sources).examples =
        (sources.foldl fillFromSource b).examples := by
    unfold mergeDefinitionSources
    rw [hsel]
    dsimp only
    split_ifs <;> exact ⟨rfl, rfl, rfl⟩
  obtain ⟨hc, hp, he⟩ := hred
  refine ⟨?_, ?_, ?_, ?_, ?_, ?_⟩
  · intro h
    rw [hc]
    exact foldl_fill_cefr_truthy sources b h
  · intro h
    rw [hc]
    exact foldl_fill_cefr_falsy sources b h
  · intro h
    rw [hp]
    exact foldl_fill_pron_truthy sources b h
  · intro h
    rw [hp]
    exact foldl_fill_pron_falsy sources b h
  · rw [he]
    exact foldl_fill_examples_extends sources b
  · rw [he]
    exact foldl_fill_examples_length sources b

/-- Witness for `mergeDefinitionSources_fill` on a concrete source list. -/
theorem mergeDefinitionSources_fill_witness :
    selectBestDefinition [srcEmptyWithCefr, srcValidNoCefr] = some srcValidNoCefr ∧
    ((optTruthy srcValidNoCefr.cefrLevel = true →
      (mergeDefinitionSources [srcEmptyWithCefr, srcValidNoCefr]).cefrLevel =
        srcValidNoCefr.cefrLevel) ∧
    (optTruthy srcValidNoCefr.cefrLevel = false →
      (mergeDefinitionSources [srcEmptyWithCefr, srcValidNoCefr]).cefrLevel =
        (match firstTruthy ([srcEmptyWithCefr, srcValidNoCefr].map (·.cefrLevel)) with
         | none => srcValidNoCefr.cefrLevel
         | some v => some v)) ∧
    (optTruthy srcValidNoCefr.pronunciation = true →
      (mergeDefinitionSources [srcEmptyWithCefr, srcValidNoCefr]).pronunciation =
        srcValidNoCefr.pronunciation) ∧
    (optTruthy srcValidNoCefr.pronunciation = false →
      (mergeDefinitionSources [srcEmptyWithCefr, srcValidNoCefr]).pronunciation =
        (match firstTruthy ([srcEmptyWithCefr, srcValidNoCefr].map (·.pronunciation)) with
         | none => srcValidNoCefr.pronunciation
         | some v => some v)) ∧
    (∃ new, ((mergeDefinitionSources [srcEmptyWithCefr, srcValidNoCefr]).examples.getD []) =
      (srcValidNoCefr.examples.getD []) ++ new) ∧
    ((mergeDefinitionSources [srcEmptyWithCefr, srcValidNoCefr]).examples.getD []).length ≤
      max (srcValidNoCefr.examples.getD []).length 3) :=
  ⟨by decide, mergeDefinitionSources_fill _ _ (by decide)⟩

/-! ## C5 and C10: the fixed-window rate limiter -/

theorem lookup_setRL :
    ∀ (st : RLState) (id id' : String) (e : RateLimitEntry),
      lookupRL (setRL st id e) id' =
        if id' = id then some e else lookupRL st id' := by
  intro st
  induction st with
  | nil =>
    intro id id' e
    show (if id = id' then some e else none) = _
    by_cases h : id' = id
    · subst h
      simp
    · rw [if_neg (fun hh => h hh.symm), if_neg h]
      rfl
  | cons kv rest ih =>
    intro id id' e
    obtain ⟨k, v⟩ := kv
    show lookupRL (if k = id then (id, e) :: rest else (k, v) :: setRL rest id e) id' = _
    by_cases hk : k = id
    · subst hk
      rw [if_pos rfl]
      show (if k = id' then some e else lookupRL rest id') = _
      by_cases h : id' = k
      · subst h
        simp [lookupRL]
      · rw [if_neg (fun hh => h hh.symm), if_neg h]
        show _ = (if k = id' then some v else lookupRL rest id')
        rw [if_neg (fun hh => h hh.symm)]
    · rw [if_neg hk]
      show (if k = id' then some v else lookupRL (setRL rest id e) id') = _
      rw [ih]
      by_cases h : k = id'
      · rw [if_pos h]
        have hid : ¬ id' = id := fun hh => hk (h.trans hh)
        rw [if_neg hid]
        show _ = (if k = id' then some v else lookupRL rest id')
        rw [if_pos h]
      · rw [if_neg h]
        by_cases h' : id' = id
        · rw [if_pos h', if_pos h']
        · rw [if_neg h', if_neg h']
          show _ = (if k = id' then some v else lookupRL rest id')
          rw [if_neg h]

theorem checkRateLimit_preserves_bound (cfg : RateLimitConfig)
    (hmax : 1 ≤ cfg.maxRequests) (id : String) (now : Nat) (st : RLState)
    (hInv : ∀ (k : String) (e : RateLimitEntry),
      lookupRL st k = some e → e.count ≤ cfg.maxRequests) :
    ∀ (k : String) (e : RateLimitEntry),
      lookupRL (checkRateLimit id cfg now st).2 k = some e →
        e.count ≤ cfg.maxRequests := by
  intro k e
  unfold checkRateLimit
  cases hl : lookupRL st id with
  | none =>
    dsimp only
    rw [lookup_setRL]
    by_cases hk : k = id
    · rw [if_pos hk]
      intro h
      cases h
      exact hmax
    · rw [if_neg hk]
      exact hInv k e
  | some entry =>
    dsimp only
    split_ifs with hexp hrej
    · rw [lookup_setRL]
      by_cases hk : k = id
      · rw [if_pos hk]
        intro h
        cases h
        exact hmax
      · rw [if_neg hk]
        exact hInv k e
    · exact hInv k e
    · rw [lookup_setRL]
      by_cases hk : k = id
      · rw [if_pos hk]
        intro h
        cases h
        show entry.count + 1 ≤ cfg.maxRequests
        omega
      · rw [if_neg hk]
        exact hInv k e

theorem runRLFrom_preserves_bound (cfg : RateLimitConfig)
    (hmax : 1 ≤ cfg.maxRequests) :
    ∀ (calls : List (String × Nat)) (st : RLState),
      (∀ (k : String) (e : RateLimitEntry),
        lookupRL st k = some e → e.count ≤ cfg.maxRequests) →
      ∀ (k : String) (e : RateLimitEntry),
        lookupRL (runRLFrom cfg st calls) k = some e → e.count ≤ cfg.maxRequests := by
  intro calls
  induction calls with
  | nil => intro st hInv; exact hInv
  | cons c rest ih =>
    intro st hInv
    obtain ⟨id, t⟩ := c
    exact ih _ (checkRateLimit_preserves_bound cfg hmax id t st hInv)

/-- C10 (confirmed, for any positive request budget): starting from the
empty map, after any sequence of `checkRateLimit` calls every stored
entry's count is at most `maxRequests`; and a call that is rejected
(`allowed = false`) returns the state unchanged — it neither consumes
quota nor moves the window. -/
theorem rateLimiter_bound_and_reject_noop (cfg : RateLimitConfig)
    (hmax : 1 ≤ cfg.maxRequests) :
    (∀ (calls : List (String × Nat)) (id : String) (e : RateLimitEntry),
      lookupRL (runRL cfg calls) id = some e → e.count ≤ cfg.maxRequests) ∧
    (∀ (st : RLState) (id : String) (now : Nat),
      (checkRateLimit id cfg now st).1.allowed = false →
      (checkRateLimit id cfg now st).2 = st) := by
  constructor
  · intro calls id e
    exact runRLFrom_preserves_bound cfg hmax calls []
      (fun k e' h => by cases h) id e
  · intro st id now
    unfold checkRateLimit
    cases hl : lookupRL st id with
    | none =>
      dsimp only
      intro h
      cases h
    | some entry =>
      dsimp only
      split_ifs with hexp hrej
      · intro h
        cases h
      · intro _
        rfl
      · intro h
        cases h

/-- Witness for `rateLimiter_bound_and_reject_noop`. -/
theorem rateLimiter_bound_and_reject_noop_witness :
    1 ≤ (3 : Nat) ∧
    ((⟨1, 1000⟩ : RateLimitEntry).count ≤ (3 : Nat)) ∧
    (checkRateLimit "a" ⟨3, 1000⟩ 5 [("a", ⟨3, 1000⟩)]).2 = [("a", ⟨3, 1000⟩)] :=
  ⟨by decide,
   (rateLimiter_bound_and_reject_noop ⟨3, 1000⟩ (by decide)).1
     [("a", 0)] "a" ⟨1, 1000⟩ (by decide),
   (rateLimiter_bound_and_reject_noop ⟨3, 1000⟩ (by decide)).2
     [("a", ⟨3, 1000⟩)] "a" 5 (by decide)⟩

/-- C5 (confirmed): with `maxRequests = 3`, `windowMs = 1000`, four calls
for one identifier inside one window are allowed, allowed, allowed,
rejected; a fifth call after the window's reset time is allowed with a
fresh counter (`remaining = 3 - 1`, a new reset time, stored count 1). -/
theorem rateLimiter_window_scenario (id : String) (t1 t2 t3 t4 t5 : Nat)
    (h2 : t2 ≤ t1 + 1000) (h3 : t3 ≤ t1 + 1000) (h4 : t4 ≤ t1 + 1000)
    (h5 : t1 + 1000 < t5) :
    let cfg : RateLimitConfig := ⟨3, 1000⟩
    let p1 := checkRateLimit id cfg t1 []
    let p2 := checkRateLimit id cfg t2 p1.2
    let p3 := checkRateLimit id cfg t3 p2.2
    let p4 := checkRateLimit id cfg t4 p3.2
    let p5 := checkRateLimit id cfg t5 p4.2
    p1.1.allowed = true ∧ p2.1.allowed = true ∧ p3.1.allowed = true ∧
    p4.1.allowed = false ∧ p5.1.allowed = true ∧
    p5.1.remaining = (3 : Int) - 1 ∧ p5.1.resetTime = t5 + 1000 ∧
    lookupRL p5.2 id = some ⟨1, t5 + 1000⟩ := by
  intro cfg p1 p2 p3 p4 p5
  have hng2 : ¬ t2 > t1 + 1000 := by omega
  have hng3 : ¬ t3 > t1 + 1000 := by omega
  have hng4 : ¬ t4 > t1 + 1000 := by omega
  have hg5 : t5 > t1 + 1000 := h5
  have e1 : p1 = (⟨true, 3, (3 : Int) - 1, t1 + 1000⟩, [(id, ⟨1, t1 + 1000⟩)]) := rfl
  have e2 : p2 = (⟨true, 3, (3 : Int) - 2, t1 + 1000⟩, [(id, ⟨2, t1 + 1000⟩)]) := by
    show checkRateLimit id cfg t2 p1.2 = _
    rw [e1]
    unfold checkRateLimit
    rw [show lookupRL [(id, ⟨1, t1 + 1000⟩)] id = some ⟨1, t1 + 1000⟩ from by
      simp [lookupRL]]
    dsimp only
    rw [if_neg hng2, if_neg (by omega)]
    simp [setRL]
  have e3 : p3 = (⟨true, 3, (3 : Int) - 3, t1 + 1000⟩, [(id, ⟨3, t1 + 1000⟩)]) := by
    show checkRateLimit id cfg t3 p2.2 = _
    rw [e2]
    unfold checkRateLimit
    rw [show lookupRL [(id, ⟨2, t1 + 1000⟩)] id = some ⟨2, t1 + 1000⟩ from by
      simp [lookupRL]]
    dsimp only
    rw [if_neg hng3, if_neg (by omega)]
    simp [setRL]
  have e4 : p4 = (⟨false, 3, 0, t1 + 1000⟩, [(id, ⟨3, t1 + 1000⟩)]) := by
    show checkRateLimit id cfg t4 p3.2 = _
    rw [e3]
    unfold checkRateLimit
    rw [show lookupRL [(id, ⟨3, t1 + 1000⟩)] id = some ⟨3, t1 + 1000⟩ from by
      simp [lookupRL]]
    dsimp only
    rw [if_neg hng4, if_pos (by omega)]
  have e5 : p5 = (⟨true, 3, (3 : Int) - 1, t5 + 1000⟩, [(id, ⟨1, t5 + 1000⟩)]) := by
    show checkRateLimit id cfg t5 p4.2 = _
    rw [e4]
    unfold checkRateLimit
    rw [show lookupRL [(id, ⟨3, t1 + 1000⟩)] id = some ⟨3, t1 + 1000⟩ from by
      simp [lookupRL]]
    dsimp only
    rw [if_pos hg5]
    simp [setRL]
  refine ⟨by rw [e1], by rw [e2], by rw [e3], by rw [e4], by rw [e5],
    by rw [e5], by rw [e5], ?_⟩
  rw [e5]
  simp [lookupRL]

/-- Witness for `rateLimiter_window_scenario` at concrete times. -/
theorem rateLimiter_window_scenario_witness :
    (10 ≤ 0 + 1000) ∧ (20 ≤ 0 + 1000) ∧ (30 ≤ 0 + 1000) ∧ (0 + 1000 < 1001) ∧
    (let cfg : RateLimitConfig := ⟨3, 1000⟩
     let p1 := checkRateLimit "client" cfg 0 []
     let p2 := checkRateLimit "client" cfg 10 p1.2
     let p3 := checkRateLimit "client" cfg 20 p2.2
     let p4 := checkRateLimit "client" cfg 30 p3.2
     let p5 := checkRateLimit "client" cfg 1001 p4.2
     p1.1.allowed = true ∧ p2.1.allowed = true ∧ p3.1.allowed = true ∧
     p4.1.allowed = false ∧ p5.1.allowed = true ∧
     p5.1.remaining = (3 : Int) - 1 ∧ p5.1.resetTime = 1001 + 1000 ∧
     lookupRL p5.2 "client" = some ⟨1, 1001 + 1000⟩) :=
  ⟨by decide, by decide, by decide, by decide,
   rateLimiter_window_scenario "client" 0 10 20 30 1001
     (by decide) (by decide) (by decide) (by decide)⟩

/-! ## C6, C7, C8: structuring validation and configuration checks -/

theorem optTruthy_getD_ne {a : Option String} (h : optTruthy a = true) :
    a.getD "" ≠ "" := by
  cases a with
  | none => simp [optTruthy] at h
  | some s => simpa [optTruthy] using h

theorem jsOrStr_truthy {a : Option String} {fb : String}
    (h : optTruthy a = true) : jsOrStr a fb = a.getD "" := by
  unfold jsOrStr
  rw [if_pos h]

theorem jsOrStr_falsy {a : Option String} {fb : String}
    (h : optTruthy a = false) : jsOrStr a fb = fb := by
  unfold jsOrStr
  rw [if_neg (by simp [h])]

theorem jsOrStr_ne_empty {a : Option String} {fb : String}
    (hfb : fb ≠ "") : jsOrStr a fb ≠ "" := by
  unfold jsOrStr
  split_ifs with h
  · exact optTruthy_getD_ne h
  · exact hfb

theorem jsOrStr_some {x fb : String} (hx : x ≠ "") : jsOrStr (some x) fb = x := by
  unfold jsOrStr
  rw [if_pos (by simp [optTruthy, hx])]
  rfl

/-- C6 (confirmed): if the parsed AI reply has a missing or empty
`meaning_primary` and the scraped evidence carries a non-empty
definition, the success record's `meaning_primary` is the evidence's
definition, not the empty string. -/
theorem structure_meaning_fallback (p : ParsedAI) (d : EvidenceData)
    (hp : p.meaning_primary = none ∨ p.meaning_primary = some "")
    (hd : optTruthy d.definition = true) :
    (routeSuccessRecord p d).meaning_primary = d.definition.getD "" ∧
    (routeSuccessRecord p d).meaning_primary ≠ "" := by
  have hpm : ¬ optTruthy p.meaning_primary = true := by
    rcases hp with h | h <;> simp [optTruthy, h]
  have hbranch : ¬ optTruthy p.part_of_speech = true ∨ ¬ optTruthy p.meaning_primary = true :=
    Or.inr hpm
  have hinner : jsOrStr d.definition (jsOrStr p.meaning_primary "") = d.definition.getD "" :=
    jsOrStr_truthy hd
  have hne : d.definition.getD "" ≠ "" := optTruthy_getD_ne hd
  unfold routeSuccessRecord validateProcessed buildResponseData
  rw [if_pos hbranch]
  dsimp only
  rw [hinner, jsOrStr_some hne]
  exact ⟨rfl, hne⟩

/-- Witness for `structure_meaning_fallback`. -/
theorem structure_meaning_fallback_witness :
    ((⟨some "verb", none, none, none⟩ : ParsedAI).meaning_primary = none ∨
     (⟨some "verb", none, none, none⟩ : ParsedAI).meaning_primary = some "") ∧
    optTruthy evNoPos.definition = true ∧
    ((routeSuccessRecord ⟨some "verb", none, none, none⟩ evNoPos).meaning_primary =
       evNoPos.definition.getD "" ∧
     (routeSuccessRecord ⟨some "verb", none, none, none⟩ evNoPos).meaning_primary ≠ "") :=
  ⟨Or.inl rfl, by decide,
   structure_meaning_fallback ⟨some "verb", none, none, none⟩ evNoPos (Or.inl rfl) (by decide)⟩

/-- C7: counterexample.  With no key configured for the cloud backend,
the batch route returns the same 500 configuration error as the
single-word route — it does not fall back to evidence. -/
theorem batchConfig_counterexample :
    batchConfigError ⟨false, false, none, none⟩ = some 500 ∧
    singleConfigError ⟨false, false, none, none⟩ = some 500 := by
  refine ⟨rfl, rfl⟩

/-- C7 (amended): the two routes run the identical API-key check — both
fail with a 500 configuration error exactly when a cloud backend is
selected and its key is missing or empty; the batch route's
fall-back-to-evidence applies only to failures of the AI request itself,
answering success with one evidence-derived record per scrape. -/
theorem backendConfig_behavior :
    (∀ e : BackendEnv,
      batchConfigError e = singleConfigError e ∧
      (batchConfigError e = some 500 ↔
        ((e.useHuggingFace = true ∧ optTruthy e.huggingfaceApiKey = false) ∨
         (e.useHuggingFace = false ∧ e.useLMStudio = false ∧
          optTruthy e.openaiApiKey = false)))) ∧
    (∀ scrapes : List EvidenceData,
      (batchOnAIError scrapes).success = true ∧
      ((batchOnAIError scrapes).data).length = scrapes.length ∧
      (batchOnAIError scrapes).data = batchFallbackRecords scrapes) := by
  constructor
  · intro e
    obtain ⟨hf, lm, hfk, oak⟩ := e
    cases hf <;> cases lm <;>
      by_cases h1 : optTruthy hfk = true <;>
      by_cases h2 : optTruthy oak = true <;>
        simp_all [batchConfigError, singleConfigError]
  · intro scrapes
    exact ⟨rfl, by simp [batchOnAIError, batchFallbackRecords], rfl⟩

/-- C8: counterexample.  The scrapers can report `found = true` without a
part of speech; if the AI reply also lacks it, the success response
carries an empty `part_of_speech`, violating the claimed invariant. -/
theorem successRecord_counterexample :
    evNoPos.found = true ∧
    (routeSuccessRecord ⟨none, none, none, none⟩ evNoPos).part_of_speech = "" := by
  refine ⟨rfl, by decide⟩

/-- C8 (amended): every field of the success record is a plain string by
construction and `cefr_level` is never empty; `part_of_speech` and
`meaning_primary` are non-empty provided the scraped evidence carries a
non-empty partOfSpeech and definition (when the evidence lacks
partOfSpeech and the AI omits it, the success response can carry an
empty string there). -/
theorem successRecord_nonempty_fields (p : ParsedAI) (d : EvidenceData)
    (hpos : optTruthy d.partOfSpeech = true)
    (hdef : optTruthy d.definition = true) :
    (routeSuccessRecord p d).part_of_speech ≠ "" ∧
    (routeSuccessRecord p d).meaning_primary ≠ "" ∧
    (routeSuccessRecord p d).cefr_level ≠ "" := by
  by_cases hv : ¬ optTruthy p.part_of_speech = true ∨ ¬ optTruthy p.meaning_primary = true
  · unfold routeSuccessRecord validateProcessed buildResponseData
    rw [if_pos hv]
    dsimp only
    have hp1 : jsOrStr d.partOfSpeech (jsOrStr p.part_of_speech "") = d.partOfSpeech.getD "" :=
      jsOrStr_truthy hpos
    have hp2 : jsOrStr d.definition (jsOrStr p.meaning_primary "") = d.definition.getD "" :=
      jsOrStr_truthy hdef
    rw [hp1, hp2, jsOrStr_some (optTruthy_getD_ne hpos), jsOrStr_some (optTruthy_getD_ne hdef)]
    refine ⟨optTruthy_getD_ne hpos, optTruthy_getD_ne hdef, ?_⟩
    have hc : jsOrStr d.cefrLevel (jsOrStr p.cefr_level "n.a.") ≠ "" :=
      jsOrStr_ne_empty (jsOrStr_ne_empty (by decide))
    rw [jsOrStr_some hc]
    exact hc
  · push_neg at hv
    obtain ⟨hps, hpm⟩ := hv
    unfold routeSuccessRecord validateProcessed buildResponseData
    rw [if_neg (by push_neg; exact ⟨hps, hpm⟩)]
    refine ⟨?_, ?_, ?_⟩
    · rw [jsOrStr_truthy hps]
      exact optTruthy_getD_ne hps
    · rw [jsOrStr_truthy hpm]
      exact optTruthy_getD_ne hpm
    · exact jsOrStr_ne_empty (by decide)

/-- Witness for `successRecord_nonempty_fields`. -/
theorem successRecord_nonempty_fields_witness :
    optTruthy (⟨"vet", some "verb", none, some "to examine", none, none, true⟩ :
      EvidenceData).partOfSpeech = true ∧
    optTruthy (⟨"vet", some "verb", none, some "to examine", none, none, true⟩ :
      EvidenceData).definition = true ∧
    ((routeSuccessRecord ⟨none, none, none, none⟩
        ⟨"vet", some "verb", none, some "to examine", none, none, true⟩).part_of_speech ≠ "" ∧
     (routeSuccessRecord ⟨none, none, none, none⟩
        ⟨"vet", some "verb", none, some "to examine", none, none, true⟩).meaning_primary ≠ "" ∧
     (routeSuccessRecord ⟨none, none, none, none⟩
        ⟨"vet", some "verb", none, some "to examine", none, none, true⟩).cefr_level ≠ "") :=
  ⟨by decide, by decide,
   successRecord_nonempty_fields ⟨none, none, none, none⟩
     ⟨"vet", some "verb", none, some "to examine", none, none, true⟩
     (by decide) (by decide)⟩

/-! ## C9: failed words in batch reconciliation -/

theorem nodup_map_inj {α β : Type} (f : α → β) :
    ∀ {l : List α}, (l.map f).Nodup →
      ∀ {a b : α}, a ∈ l → b ∈ l → f a = f b → a = b := by
  intro l
  induction l with
  | nil =>
    intro _ a b ha
    exact absurd ha (List.not_mem_nil a)
  | cons x xs ih =>
    intro hnd a b ha hb hf
    rw [List.map_cons, List.nodup_cons] at hnd
    obtain ⟨hx, hxs⟩ := hnd
    rcases List.mem_cons.mp ha with ha1 | ha2 <;>
      rcases List.mem_cons.mp hb with hb1 | hb2
    · rw [ha1, hb1]
    · exfalso
      apply hx
      rw [← ha1, hf]
      exact List.mem_map_of_mem f hb2
    · exfalso
      apply hx
      rw [← hb1, ← hf]
      exact List.mem_map_of_mem f ha2
    · exact ih hxs ha2 hb2 hf

/-- C9: counterexample.  When two store rows collide case-insensitively
("Vet" and "vet") and only "vet" is found, "Vet" is in the failed list
and is deleted — but the update for "vet"'s record is issued against row
1, i.e. the failed word's record (`chunk.find` matches the first row
case-insensitively), so an update IS issued for it. -/
theorem batchReconcile_counterexample :
    batchFailedList c9Scraped = ["Vet"] ∧
    deletesIssued c9Chunk (batchFailedList c9Scraped) c9Data = [1] ∧
    updatesIssued c9Chunk c9Data = [1] := by
  refine ⟨by decide, by decide, by decide⟩

/-- C9 (amended): provided no two chunk rows share ids or collide
case-insensitively, and the batch data covers only words of successful
scrapes (the structuring collaborator's contract), a word with no
successful scrape appears in the response's `failed` list, its row id is
among the issued deletes, and no update is issued for it. -/
theorem batchReconcile_failed_word (chunk : List VocabRow)
    (scraped : List EvidenceData) (data : List BatchRecord)
    (w : VocabRow) (r : EvidenceData)
    (hids : (chunk.map (·.id)).Nodup)
    (hwords : scraped.map (·.word) = chunk.map (·.word))
    (hlower : (chunk.map (fun v => lowerStr v.word)).Nodup)
    (hdata : ∀ dd ∈ data, ∃ rr ∈ scraped,
      rr.found = true ∧ lowerStr rr.word = lowerStr dd.word)
    (hw : w ∈ chunk) (hr : r ∈ scraped) (hrw : r.word = w.word)
    (hrf : r.found = false) :
    w.word ∈ batchFailedList scraped ∧
    w.id ∈ deletesIssued chunk (batchFailedList scraped) data ∧
    w.id ∉ updatesIssued chunk data := by
  have hfailed : w.word ∈ batchFailedList scraped := by
    unfold batchFailedList
    rw [← hrw]
    exact List.mem_map_of_mem _ (List.mem_filter.mpr ⟨hr, by simp [hrf]⟩)
  have hdel : w.id ∈ deletesIssued chunk (batchFailedList scraped) data := by
    unfold deletesIssued wordsToDelete
    apply List.mem_map_of_mem
    apply List.mem_filter.mpr
    refine ⟨hw, ?_⟩
    simp
    exact Or.inl hfailed
  refine ⟨hfailed, hdel, ?_⟩
  intro hupd
  unfold updatesIssued at hupd
  obtain ⟨dd, hdd, hfind⟩ := List.mem_filterMap.mp hupd
  cases hfo : chunk.find? (fun v => lowerStr v.word = lowerStr dd.word) with
  | none =>
    rw [hfo] at hfind
    cases hfind
  | some w2 =>
    rw [hfo] at hfind
    have hw2id : w2.id = w.id := Option.some.inj hfind
    have hw2mem : w2 ∈ chunk := List.mem_of_find?_eq_some hfo
    have hw2p : lowerStr w2.word = lowerStr dd.word := by
      have := List.find?_some hfo
      exact of_decide_eq_true this
    have hw2w : w2 = w := nodup_map_inj (·.id) hids hw2mem hw hw2id
    obtain ⟨rr, hrr, hrrf, hrrl⟩ := hdata dd hdd
    have hmaps : scraped.map (fun x => lowerStr x.word) =
        chunk.map (fun v => lowerStr v.word) := by
      have hcongr := congrArg (List.map lowerStr) hwords
      simpa [List.map_map, Function.comp] using hcongr
    have hscrapedNodup : (scraped.map (fun x => lowerStr x.word)).Nodup := by
      rw [hmaps]
      exact hlower
    have hlow_eq : lowerStr rr.word = lowerStr r.word := by
      rw [hrrl, ← hw2p, hw2w, ← hrw]
    have hrreq : rr = r :=
      nodup_map_inj (fun x => lowerStr x.word) hscrapedNodup hrr hr hlow_eq
    rw [hrreq, hrf] at hrrf
    cases hrrf

/-- Witness for `batchReconcile_failed_word` on a collision-free chunk. -/
theorem batchReconcile_failed_word_witness :
    (c9ChunkOk.map (·.id)).Nodup ∧
    c9ScrapedOk.map (·.word) = c9ChunkOk.map (·.word) ∧
    (c9ChunkOk.map (fun v => lowerStr v.word)).Nodup ∧
    (∀ dd ∈ c9DataOk, ∃ rr ∈ c9ScrapedOk,
      rr.found = true ∧ lowerStr rr.word = lowerStr dd.word) ∧
    (⟨1, "alpha"⟩ : VocabRow) ∈ c9ChunkOk ∧
    ((⟨1, "alpha"⟩ : VocabRow).word ∈ batchFailedList c9ScrapedOk ∧
     (⟨1, "alpha"⟩ : VocabRow).id ∈
       deletesIssued c9ChunkOk (batchFailedList c9ScrapedOk) c9DataOk ∧
     (⟨1, "alpha"⟩ : VocabRow).id ∉ updatesIssued c9ChunkOk c9DataOk) :=
  ⟨by decide, by decide, by decide, by decide, by decide,
   batchReconcile_failed_word c9ChunkOk c9ScrapedOk c9DataOk
     ⟨1, "alpha"⟩ ⟨"alpha", none, none, none, none, none, false⟩
     (by decide) (by decide) (by decide) (by decide)
     (by decide) (by decide) rfl rfl⟩

end Polyglot
